/-
Verification of the document-analyzer module (document_analyzer.py).

The Python module classifies an uploaded file (by filename and optional
text content) into a document type and an education level, computes
heuristic confidence scores, resolves exam-specific category mappings and
suggests a normalized file name.  This file gives a shallow embedding of
that module: regular-expression patterns become a small pattern AST with
an executable search function, the catalogs become Lean data, floats
become exact rationals, and the scoring / classification / naming
functions are translated loop for loop.
-/
import Mathlib

set_option maxRecDepth 8000

namespace DocAnalyzer

/-! ## Pattern AST and matcher

The catalogs use a small fragment of Python regular expressions:
literal characters, character classes such as `[cs]`, `\s`, `\s*`, the
word boundary `\b`, concatenation, alternation, optional groups.  We
embed exactly that fragment.  `re.search` semantics: the pattern may
match anywhere in the string; matching is case-insensitive
(`re.IGNORECASE`). -/

inductive Pat where
  | eps : Pat
  | lit : Char → Pat
  | cls : List Char → Pat
  | ws : Pat
  | wsStar : Pat
  | wb : Pat
  | seq : Pat → Pat → Pat
  | alt : Pat → Pat → Pat
  | opt : Pat → Pat
deriving Repr, DecidableEq

/-- Python `\s` over ASCII: space, tab, newline, carriage return,
vertical tab, form feed. -/
def isSpaceChar (c : Char) : Bool :=
  c = ' ' || c = '\t' || c = '\n' || c = '\r' || c = '\x0b' || c = '\x0c'

/-- Python `\w` over ASCII: letters, digits, underscore. -/
def isWordChar (c : Char) : Bool := c.isAlphanum || c = '_'

/-- Match zero or more whitespace characters, then hand over to the
continuation `k` (which receives the previous character, for `\b`, and
the rest of the input).  All intermediate stopping points are tried. -/
def wsRun : Option Char → List Char → (Option Char → List Char → Bool) → Bool
  | prev, [], k => k prev []
  | prev, c :: rest, k =>
      k prev (c :: rest) || (isSpaceChar c && wsRun (some c) rest k)

/-- `\b` holds between positions exactly when one side is a word
character and the other is not (outside the string counts as non-word). -/
def atBoundary (prev : Option Char) (s : List Char) : Bool :=
  let pw := match prev with | none => false | some c => isWordChar c
  let nw := match s with | [] => false | c :: _ => isWordChar c
  pw != nw

/-- Continuation-passing matcher.  `matchP p prev s k` holds when some
prefix of `s` matches `p` and `k` accepts the remainder; `prev` is the
character just before `s` (for word boundaries).  Comparison of literal
characters is case-insensitive, mirroring `re.IGNORECASE`. -/
def matchP : Pat → Option Char → List Char → (Option Char → List Char → Bool) → Bool
  | .eps, prev, s, k => k prev s
  | .lit _, _, [], _ => false
  | .lit c, _, a :: rest, k => (a.toLower = c.toLower) && k (some a) rest
  | .cls _, _, [], _ => false
  | .cls cs, _, a :: rest, k => cs.contains a.toLower && k (some a) rest
  | .ws, _, [], _ => false
  | .ws, _, a :: rest, k => isSpaceChar a && k (some a) rest
  | .wsStar, prev, s, k => wsRun prev s k
  | .wb, prev, s, k => atBoundary prev s && k prev s
  | .seq p q, prev, s, k => matchP p prev s (fun prev2 s2 => matchP q prev2 s2 k)
  | .alt p q, prev, s, k => matchP p prev s k || matchP q prev s k
  | .opt p, prev, s, k => matchP p prev s k || k prev s

/-- Try to match `p` starting at every position of the input, tracking
the previous character. -/
def searchFrom (p : Pat) : Option Char → List Char → Bool
  | prev, [] => matchP p prev [] (fun _ _ => true)
  | prev, c :: rest =>
      matchP p prev (c :: rest) (fun _ _ => true) || searchFrom p (some c) rest

/-- Embedding of `re.search(pattern, s, re.IGNORECASE) is not None`. -/
def reSearch (p : Pat) (s : String) : Bool := searchFrom p none s.data

/-- A sequence of case-insensitive literal characters. -/
def pstr (s : String) : Pat :=
  s.data.foldr (fun c acc => Pat.seq (Pat.lit c) acc) Pat.eps

/-- Sequence a list of patterns. -/
def pseq (ps : List Pat) : Pat := ps.foldr Pat.seq Pat.eps

/-! ## Substring test (Python `in` on strings) -/

/-- `hasInfix needle hay` holds when `needle` occurs contiguously in
`hay` (the empty needle occurs everywhere), like Python `needle in hay`. -/
def hasInfix (needle : List Char) : List Char → Bool
  | [] => needle.isEmpty
  | c :: t => needle.isPrefixOf (c :: t) || hasInfix needle t

/-- Embedding of Python `sub in hay`. -/
def strContains (hay sub : String) : Bool := hasInfix sub.data hay.data

/-- Python `str.lower()` (ASCII), mapped characterwise. -/
def strLower (s : String) : String := String.mk (s.data.map Char.toLower)

/-- Python `str.upper()` (ASCII), mapped characterwise. -/
def strUpper (s : String) : String := String.mk (s.data.map Char.toUpper)

/-! ## Catalog data model -/

/-- One entry of `self.document_patterns`: keyword list, regex pattern
list and exam-mapping table (association list in insertion order). -/
structure DocDef where
  keywords : List String
  patterns : List Pat
  examMappings : List (String × String)
deriving DecidableEq

/-- One entry of `self.education_patterns`: keyword list and regex
pattern list (education levels carry no exam mappings). -/
structure EduDef where
  keywords : List String
  patterns : List Pat
deriving DecidableEq

/-- Association-list lookup, mirroring Python dict lookup by key
(dicts preserve insertion order; keys here are unique). -/
def lookupStr {α : Type} : List (String × α) → String → Option α
  | [], _ => none
  | (k, v) :: rest, key => if key = k then some v else lookupStr rest key

/-! ## The document-type catalog (`self.document_patterns`) -/

/-- `document_patterns['photograph']`. -/
def photographDef : DocDef where
  keywords := ["photo", "photograph", "image", "picture", "pic",
    "passport size", "headshot", "passport photo", "passport photograph"]
  patterns := [
    pseq [pstr "photo", .opt (pstr "graph")],
    pstr "image",
    pstr "picture",
    pseq [pstr "passport", .wsStar, .alt (pstr "size") (pstr "photo")],
    pstr "headshot",
    pseq [pstr "postcard", .wsStar, pstr "photo"]]
  examMappings := [("jee", "photograph"), ("neet", "passport_photograph"),
    ("upsc", "photograph"), ("gate", "photograph"), ("cat", "photograph")]

/-- `document_patterns['postcard_photograph']`. -/
def postcardPhotographDef : DocDef where
  keywords := ["postcard photo", "postcard photograph", "postcard size photo"]
  patterns := [
    pseq [pstr "postcard", .wsStar, .alt (pstr "photo") (pstr "photograph")],
    pseq [pstr "postcard", .wsStar, pstr "size"]]
  examMappings := [("neet", "postcard_photograph")]

/-- `document_patterns['signature']`. -/
def signatureDef : DocDef where
  keywords := ["signature", "sign", "autograph", "signed", "sig"]
  patterns := [
    pstr "signature",
    pseq [pstr "sign", .opt (pstr "ed")],
    pstr "autograph",
    pseq [.wb, pstr "sig", .wb]]
  examMappings := [("jee", "signature"), ("neet", "signature"),
    ("upsc", "signature"), ("gate", "signature"), ("cat", "signature")]

/-- `document_patterns['class10_certificate']`. -/
def class10CertificateDef : DocDef where
  keywords := ["class 10", "10th", "tenth", "x class", "sslc", "matriculation",
    "class10", "class-10", "10 class"]
  patterns := [
    pseq [pstr "class", .wsStar, pstr "10"],
    pseq [pstr "10t", .opt (.lit 'h')],
    pstr "tenth",
    pseq [pstr "x", .wsStar, pstr "class"],
    pstr "sslc",
    pstr "matriculation"]
  examMappings := [("jee", "class10_certificate"), ("neet", "class10_certificate")]

/-- `document_patterns['category_certificate']`. -/
def categoryCertificateDef : DocDef where
  keywords := ["caste certificate", "category certificate", "reservation certificate",
    "obc", "sc", "st", "ews", "minority", "pwd", "disability"]
  patterns := [
    pseq [pstr "caste", .wsStar, pstr "certificate"],
    pseq [pstr "category", .wsStar, pstr "certificate"],
    pseq [pstr "reservation", .wsStar, pstr "certificate"],
    .alt (pstr "obc") (.alt (pstr "sc") (.alt (pstr "st") (pstr "ews"))),
    pseq [pstr "minority", .wsStar, pstr "certificate"],
    .alt (pstr "pwd") (pstr "disability")]
  examMappings := [("neet", "category_certificate"), ("gate", "category_certificate")]

/-- `document_patterns['caste_or_pwd_certificate']`. -/
def casteOrPwdCertificateDef : DocDef where
  keywords := ["caste certificate", "pwd certificate", "disability certificate",
    "reservation certificate", "category certificate"]
  patterns := [
    pseq [pstr "caste", .wsStar, pstr "certificate"],
    pseq [pstr "pwd", .wsStar, pstr "certificate"],
    pseq [pstr "disability", .wsStar, pstr "certificate"],
    pseq [pstr "reservation", .wsStar, pstr "certificate"]]
  examMappings := [("jee", "caste_or_pwd_certificate")]

/-- `document_patterns['finger_thumb_impressions']`. -/
def fingerThumbImpressionsDef : DocDef where
  keywords := ["finger impression", "thumb impression", "fingerprint",
    "thumb print", "finger print"]
  patterns := [
    pseq [pstr "finger", .wsStar, .alt (pstr "impression") (pstr "print")],
    pseq [pstr "thumb", .wsStar, .alt (pstr "impression") (pstr "print")],
    pstr "fingerprint"]
  examMappings := [("neet", "finger_thumb_impressions")]

/-- `document_patterns['address_proof']`. -/
def addressProofDef : DocDef where
  keywords := ["address proof", "address certificate", "domicile",
    "residence proof", "residential certificate"]
  patterns := [
    pseq [pstr "address", .wsStar, .alt (pstr "proof") (pstr "certificate")],
    pstr "domicile",
    pseq [pstr "residence", .wsStar, pstr "proof"],
    pseq [pstr "residential", .wsStar, pstr "certificate"]]
  examMappings := [("neet", "address_proof")]

/-- `document_patterns['photo_id_proof']`. -/
def photoIdProofDef : DocDef where
  keywords := ["photo id", "identity proof", "id proof", "aadhar", "aadhaar",
    "pan card", "voter id", "passport", "driving license"]
  patterns := [
    pseq [pstr "photo", .wsStar, pstr "id"],
    pseq [pstr "identity", .wsStar, pstr "proof"],
    pseq [pstr "id", .wsStar, pstr "proof"],
    pseq [.lit 'a', .opt (.lit 'a'), .lit 'd', .opt (.lit 'h'),
      .lit 'a', .opt (.lit 'a'), .lit 'r'],
    pseq [pstr "pan", .wsStar, pstr "card"],
    pseq [pstr "voter", .wsStar, pstr "id"],
    pstr "passport",
    pseq [pstr "driving", .wsStar, pstr "licen", .cls ['c', 's'], .lit 'e']]
  examMappings := [("upsc", "photo_id_proof")]

/-- `document_patterns['certificates_academic_or_category']`. -/
def certificatesAcademicOrCategoryDef : DocDef where
  keywords := ["academic certificate", "degree certificate", "graduation certificate",
    "category certificate", "educational certificate"]
  patterns := [
    pseq [pstr "academic", .wsStar, pstr "certificate"],
    pseq [pstr "degree", .wsStar, pstr "certificate"],
    pseq [pstr "graduation", .wsStar, pstr "certificate"],
    pseq [pstr "educational", .wsStar, pstr "certificate"]]
  examMappings := [("cat", "certificates_academic_or_category")]

/-- `self.document_patterns`, in dict insertion order. -/
def documentPatterns : List (String × DocDef) := [
  ("photograph", photographDef),
  ("postcard_photograph", postcardPhotographDef),
  ("signature", signatureDef),
  ("class10_certificate", class10CertificateDef),
  ("category_certificate", categoryCertificateDef),
  ("caste_or_pwd_certificate", casteOrPwdCertificateDef),
  ("finger_thumb_impressions", fingerThumbImpressionsDef),
  ("address_proof", addressProofDef),
  ("photo_id_proof", photoIdProofDef),
  ("certificates_academic_or_category", certificatesAcademicOrCategoryDef)]

/-! ## The education-level catalog (`self.education_patterns`) -/

/-- `education_patterns['10th']`. -/
def tenthDef : EduDef where
  keywords := ["10th", "tenth", "class 10", "x class", "sslc", "matriculation"]
  patterns := [
    pseq [pstr "10t", .opt (.lit 'h')],
    pstr "tenth",
    pseq [pstr "class", .wsStar, pstr "10"],
    pseq [pstr "x", .wsStar, pstr "class"],
    pstr "sslc",
    pstr "matriculation"]

/-- `education_patterns['12th']`. -/
def twelfthDef : EduDef where
  keywords := ["12th", "twelfth", "class 12", "xii class", "intermediate",
    "higher secondary"]
  patterns := [
    pseq [pstr "12t", .opt (.lit 'h')],
    pstr "twelfth",
    pseq [pstr "class", .wsStar, pstr "12"],
    pseq [pstr "xii", .wsStar, pstr "class"],
    pstr "intermediate",
    pseq [pstr "higher", .wsStar, pstr "secondary"]]

/-- `education_patterns['graduation']`. -/
def graduationDef : EduDef where
  keywords := ["graduation", "bachelor", "b.tech", "b.sc", "b.com", "b.a",
    "undergraduate"]
  patterns := [
    pstr "graduation",
    pstr "bachelor",
    pseq [.lit 'b', .opt (.lit '.'), pstr "tech"],
    pseq [.lit 'b', .opt (.lit '.'), pstr "sc"],
    pseq [.lit 'b', .opt (.lit '.'), pstr "com"],
    pseq [.lit 'b', .opt (.lit '.'), .lit 'a'],
    pstr "undergraduate"]

/-- `self.education_patterns`, in dict insertion order. -/
def educationPatterns : List (String × EduDef) := [
  ("10th", tenthDef),
  ("12th", twelfthDef),
  ("graduation", graduationDef)]

/-! ## Scorer

Python distinguishes a missing argument (`None`) from an empty string,
and `if exam_type:` / `if content:` are false for both; optional string
arguments are embedded as `Option String` and their truthiness tested
explicitly. -/

/-- The pattern loop of the scorers: test each pattern in order against
the filename; the first match contributes `w` and stops the loop
(the Python `break`). -/
def patternHit (w : ℚ) : List Pat → String → ℚ
  | [], _ => 0
  | p :: rest, s => if reSearch p s then w else patternHit w rest s

/-- The content loop of the scorers: the first keyword occurring in the
(lowercased) content contributes `w` and stops the loop. -/
def contentHit (w : ℚ) : List String → String → ℚ
  | [], _ => 0
  | kw :: rest, c => if strContains c (strLower kw) then w else contentHit w rest c

/-- `_detect_document_type`'s per-definition confidence: 0.1 exam bonus,
0.3 per filename-keyword match (accumulated over the whole list),
0.4 for the first matching pattern, 0.2 for the first content keyword.
`filename` is expected already lowercased, as at the call site. -/
def docScore (cfg : DocDef) (filename : String) (examType : Option String)
    (content : Option String) : ℚ :=
  let c0 : ℚ := match examType with
    | none => 0
    | some e => if e = "" then 0 else
        if (lookupStr cfg.examMappings e).isSome then 0.1 else 0
  let c1 := cfg.keywords.foldl
    (fun acc kw => if strContains filename (strLower kw) then acc + 0.3 else acc) c0
  let c2 := c1 + patternHit 0.4 cfg.patterns filename
  match content with
  | none => c2
  | some ct => if ct = "" then c2 else c2 + contentHit 0.2 cfg.keywords (strLower ct)

/-- `_detect_education_level`'s per-definition confidence: 0.4 per
filename-keyword match, 0.5 for the first matching pattern, 0.3 for the
first content keyword; no exam bonus. -/
def eduScore (cfg : EduDef) (filename : String) (content : Option String) : ℚ :=
  let c1 := cfg.keywords.foldl
    (fun acc kw => if strContains filename (strLower kw) then acc + 0.4 else acc) 0
  let c2 := c1 + patternHit 0.5 cfg.patterns filename
  match content with
  | none => c2
  | some ct => if ct = "" then c2 else c2 + contentHit 0.3 cfg.keywords (strLower ct)

/-! ## Classifier -/

/-- The selection loop shared by both detectors: keep the entry whose
score strictly exceeds the best seen so far (`if confidence >
best_confidence`), so ties keep the earlier entry. -/
def runBest (init : String × ℚ) (l : List (String × ℚ)) : String × ℚ :=
  l.foldl (fun best p => if p.2 > best.2 then p else best) init

/-- Every document-type catalog entry paired with its score. -/
def docScores (filename : String) (examType : Option String)
    (content : Option String) : List (String × ℚ) :=
  documentPatterns.map (fun e => (e.1, docScore e.2 filename examType content))

/-- Every education-level catalog entry paired with its score. -/
def eduScores (filename : String) (content : Option String) : List (String × ℚ) :=
  educationPatterns.map (fun e => (e.1, eduScore e.2 filename content))

/-- Best document-type entry before clamping (`best_match`,
`best_confidence` at the end of the loop in `_detect_document_type`). -/
def docRawBest (filename : String) (examType : Option String)
    (content : Option String) : String × ℚ :=
  runBest ("document", 0) (docScores filename examType content)

/-- Best education-level entry before clamping. -/
def eduRawBest (filename : String) (content : Option String) : String × ℚ :=
  runBest ("", 0) (eduScores filename content)

/-- `_detect_document_type`: returns `best_match, min(best_confidence, 1.0)`. -/
def detectDocumentType (filename : String) (examType : Option String)
    (content : Option String) : String × ℚ :=
  ((docRawBest filename examType content).1,
   min (docRawBest filename examType content).2 1)

/-- `_detect_education_level`: returns `best_match, min(best_confidence, 1.0)`. -/
def detectEducationLevel (filename : String) (content : Option String) : String × ℚ :=
  ((eduRawBest filename content).1, min (eduRawBest filename content).2 1)

/-! ## Exam mapping and Namer -/

/-- `_get_exam_mapping(doc_type, exam_type)`. -/
def getExamMapping (docType : String) (examType : Option String) : String :=
  match examType with
  | none => docType
  | some e =>
      if e = "" then docType
      else match lookupStr documentPatterns docType with
        | none => docType
        | some cfg => (lookupStr cfg.examMappings e).getD docType

/-- `_get_exam_specific_category` just delegates to `_get_exam_mapping`. -/
def getExamSpecificCategory (docType : String) (examType : Option String) : String :=
  getExamMapping docType examType

/-- `original_name.split('.')[-1] if '.' in original_name else 'pdf'`. -/
def fileExtension (nm : String) : String :=
  if nm.data.contains '.' then
    String.mk ((nm.data.reverse.takeWhile fun c => c != '.').reverse)
  else "pdf"

/-- `'_'.join(parts)`. -/
def joinParts (sep : String) : List String → String
  | [] => ""
  | [p] => p
  | p :: rest => p ++ sep ++ joinParts sep rest

/-- Fixed education-level display table of the generic naming branch. -/
def eduDisplayMap : List (String × String) :=
  [("10th", "10th"), ("12th", "12th"), ("graduation", "Graduation")]

/-- Fixed document-type display table of the generic naming branch. -/
def docDisplayMap : List (String × String) :=
  [("photograph", "Photo"), ("signature", "Signature"),
   ("class10_certificate", "Class10Certificate"),
   ("category_certificate", "CategoryCertificate"), ("document", "Document")]

/-- `_generate_exam_specific_name(doc_type, edu_level, original_name, exam_type)`. -/
def generateExamSpecificName (docType eduLevel originalName : String)
    (examType : Option String) : String :=
  let ext := fileExtension originalName
  let est := getExamMapping docType examType
  let base :=
    if est = "" then
      let p1 : List String :=
        if eduLevel = "" then [] else
          match lookupStr eduDisplayMap eduLevel with
          | some lbl => [lbl]
          | none => []
      let p2 : List String :=
        match lookupStr docDisplayMap docType with
        | some lbl => p1 ++ [lbl]
        | none => p1
      let p3 := if p2 = [] then ["Document"] else p2
      joinParts "_" p3
    else
      let examPart := match examType with
        | none => ""
        | some e => if e = "" then "" else strUpper e
      joinParts "_" (([examPart, est]).filter fun p => p != "")
  base ++ "." ++ ext

/-! ## Rounding and the top-level analyzer -/

/-- The integer nearest to `x`, ties to the even integer — the rounding
of Python's built-in `round`. -/
def roundHalfEven (x : ℚ) : ℤ :=
  if x - ⌊x⌋ < 1 / 2 then ⌊x⌋
  else if 1 / 2 < x - ⌊x⌋ then ⌊x⌋ + 1
  else if ⌊x⌋ % 2 = 0 then ⌊x⌋ else ⌊x⌋ + 1

/-- Python `round(x, 2)` on exact rationals. -/
def pyRound2 (x : ℚ) : ℚ := (roundHalfEven (x * 100) : ℚ) / 100

/-- The record returned by `analyze_document` (the `analysis_details`
sub-dict is flattened into the last three fields). -/
structure AnalysisResult where
  originalName : String
  suggestedName : String
  documentType : String
  educationLevel : String
  examType : Option String
  confidence : ℚ
  detectedCategory : String
  documentTypeConfidence : ℚ
  educationLevelConfidence : ℚ
  examSpecificMapping : String
deriving Repr, DecidableEq

/-- `analyze_document(filename, exam_type, file_content)`. -/
def analyzeDocument (filename : String) (examType : Option String)
    (content : Option String) : AnalysisResult :=
  let filenameLower := strLower filename
  let dt := detectDocumentType filenameLower examType content
  let el := detectEducationLevel filenameLower content
  let suggested := generateExamSpecificName dt.1 el.1 filename examType
  let overall := (dt.2 + el.2) / 2
  { originalName := filename
    suggestedName := suggested
    documentType := dt.1
    educationLevel := el.1
    examType := examType
    confidence := pyRound2 overall
    detectedCategory := getExamSpecificCategory dt.1 examType
    documentTypeConfidence := dt.2
    educationLevelConfidence := el.2
    examSpecificMapping := getExamMapping dt.1 examType }

/-- One element of the `files_info` argument of `batch_analyze`. -/
structure FileInfo where
  name : String
  content : Option String

/-- `batch_analyze(files_info, exam_type)`: the loop appends each
analysis to the result list in order. -/
def batchAnalyze (files : List FileInfo) (examType : Option String) :
    List AnalysisResult :=
  files.foldl (fun results fi => results ++ [analyzeDocument fi.name examType fi.content]) []

/-! ## Decomposition of the scoring loops -/

lemma foldl_count_add (P : String → Bool) (w : ℚ) (kws : List String) :
    ∀ init : ℚ, kws.foldl (fun acc kw => if P kw then acc + w else acc) init
      = init + w * (kws.countP P : ℚ) := by
  induction kws with
  | nil => intro init; simp
  | cons kw rest ih =>
      intro init
      by_cases h : P kw
      · simp only [List.foldl_cons, h, if_pos, List.countP_cons, ih]
        push_cast [h]
        ring
      · simp only [List.foldl_cons, h, if_neg, List.countP_cons, ih]
        push_cast [h]
        ring

lemma patternHit_eq (w : ℚ) (ps : List Pat) (s : String) :
    patternHit w ps s = if ps.any (fun p => reSearch p s) then w else 0 := by
  induction ps with
  | nil => simp [patternHit]
  | cons p rest ih =>
      by_cases h : reSearch p s <;> simp [patternHit, h, ih]

lemma contentHit_eq (w : ℚ) (kws : List String) (c : String) :
    contentHit w kws c
      = if kws.any (fun kw => strContains c (strLower kw)) then w else 0 := by
  induction kws with
  | nil => simp [contentHit]
  | cons kw rest ih =>
      by_cases h : strContains c (strLower kw) <;> simp [contentHit, h, ih]

/-- The exam-bonus component of `_detect_document_type`: 0.1 exactly
when a truthy exam type is a key of the definition's exam-mapping table. -/
def examBonusOf (cfg : DocDef) (examType : Option String) : ℚ :=
  match examType with
  | none => 0
  | some e => if e = "" then 0 else
      if (lookupStr cfg.examMappings e).isSome then 0.1 else 0

/-- The content component of the scorers: `w` exactly when truthy
content is supplied and some keyword occurs in its lowercasing. -/
def contentBonusOf (kws : List String) (content : Option String) (w : ℚ) : ℚ :=
  match content with
  | none => 0
  | some c => if c = "" then 0 else
      if kws.any (fun kw => strContains (strLower c) (strLower kw)) then w else 0

lemma docScore_eq (cfg : DocDef) (fn : String) (et ct : Option String) :
    docScore cfg fn et ct =
      examBonusOf cfg et
      + 0.3 * ((cfg.keywords.countP fun kw => strContains fn (strLower kw)) : ℚ)
      + (if cfg.patterns.any (fun p => reSearch p fn) then 0.4 else 0)
      + contentBonusOf cfg.keywords ct 0.2 := by
  cases et with
  | none =>
      cases ct with
      | none =>
          unfold docScore examBonusOf contentBonusOf
          simp only [foldl_count_add, patternHit_eq]
          ring
      | some c =>
          unfold docScore examBonusOf contentBonusOf
          simp only [foldl_count_add, patternHit_eq, contentHit_eq]
          split_ifs <;> ring
  | some e =>
      cases ct with
      | none =>
          unfold docScore examBonusOf contentBonusOf
          simp only [foldl_count_add, patternHit_eq]
          split_ifs <;> ring
      | some c =>
          unfold docScore examBonusOf contentBonusOf
          simp only [foldl_count_add, patternHit_eq, contentHit_eq]
          split_ifs <;> ring

lemma eduScore_eq (cfg : EduDef) (fn : String) (ct : Option String) :
    eduScore cfg fn ct =
      0.4 * ((cfg.keywords.countP fun kw => strContains fn (strLower kw)) : ℚ)
      + (if cfg.patterns.any (fun p => reSearch p fn) then 0.5 else 0)
      + contentBonusOf cfg.keywords ct 0.3 := by
  cases ct with
  | none =>
      unfold eduScore contentBonusOf
      simp only [foldl_count_add, patternHit_eq]
      ring
  | some c =>
      unfold eduScore contentBonusOf
      simp only [foldl_count_add, patternHit_eq, contentHit_eq]
      split_ifs <;> ring

/-! ## The selection loop -/

lemma runBest_cons (init p : String × ℚ) (t : List (String × ℚ)) :
    runBest init (p :: t) = runBest (if p.2 > init.2 then p else init) t := rfl

lemma runBest_init_le (l : List (String × ℚ)) :
    ∀ init : String × ℚ, init.2 ≤ (runBest init l).2 := by
  induction l with
  | nil => intro init; exact le_refl _
  | cons p t ih =>
      intro init
      rw [runBest_cons]
      by_cases h : p.2 > init.2
      · rw [if_pos h]
        exact le_trans (le_of_lt h) (ih p)
      · rw [if_neg h]
        exact ih init

lemma runBest_mem_or_init (l : List (String × ℚ)) :
    ∀ init : String × ℚ, runBest init l = init ∨ runBest init l ∈ l := by
  induction l with
  | nil => intro init; exact Or.inl rfl
  | cons p t ih =>
      intro init
      rw [runBest_cons]
      by_cases h : p.2 > init.2
      · rw [if_pos h]
        rcases ih p with h1 | h1
        · exact Or.inr (by rw [h1]; exact List.mem_cons_self p t)
        · exact Or.inr (List.mem_cons_of_mem p h1)
      · rw [if_neg h]
        rcases ih init with h1 | h1
        · exact Or.inl h1
        · exact Or.inr (List.mem_cons_of_mem p h1)

lemma runBest_eq_init_of_le (l : List (String × ℚ)) :
    ∀ init : String × ℚ, (∀ p ∈ l, p.2 ≤ init.2) → runBest init l = init := by
  induction l with
  | nil => intro init _; rfl
  | cons p t ih =>
      intro init h
      rw [runBest_cons]
      have hp : ¬ p.2 > init.2 := not_lt.mpr (h p (List.mem_cons_self p t))
      rw [if_neg hp]
      exact ih init (fun q hq => h q (List.mem_cons_of_mem p hq))

/-- Full characterization of the selection loop: either no entry beats
the initial value (and the initial value is returned), or the result is
the first entry attaining the maximum — every entry scores no more, and
every strictly earlier entry scores strictly less. -/
lemma runBest_spec (l : List (String × ℚ)) :
    ∀ init : String × ℚ,
      (runBest init l = init ∧ ∀ p ∈ l, p.2 ≤ init.2) ∨
      (∃ i, ∃ hi : i < l.length,
        runBest init l = l.get ⟨i, hi⟩ ∧
        init.2 < (l.get ⟨i, hi⟩).2 ∧
        (∀ j, ∀ hj : j < l.length, (l.get ⟨j, hj⟩).2 ≤ (runBest init l).2) ∧
        (∀ j, ∀ hj : j < l.length, j < i → (l.get ⟨j, hj⟩).2 < (runBest init l).2)) := by
  induction l with
  | nil =>
      intro init
      exact Or.inl ⟨rfl, fun p hp => absurd hp (List.not_mem_nil p)⟩
  | cons p t ih =>
      intro init
      by_cases hc : p.2 > init.2
      · have hrun2 : runBest init (p :: t) = runBest p t := by
          rw [runBest_cons, if_pos hc]
        rcases ih p with ⟨h1, h2⟩ | ⟨i, hi, h1, h2, h3, h4⟩
        · refine Or.inr ⟨0, Nat.succ_pos _, ?_, ?_, ?_, ?_⟩
          · rw [hrun2, h1]; rfl
          · exact hc
          · intro j hj
            rw [hrun2, h1]
            cases j with
            | zero => exact le_refl _
            | succ k =>
                exact h2 _ (List.get_mem t k (Nat.lt_of_succ_lt_succ hj))
          · intro j hj hj0
            exact absurd hj0 (Nat.not_lt_zero j)
        · refine Or.inr ⟨i + 1, Nat.succ_lt_succ hi, ?_, ?_, ?_, ?_⟩
          · rw [hrun2, h1]; rfl
          · exact lt_trans hc h2
          · intro j hj
            rw [hrun2]
            cases j with
            | zero =>
                show p.2 ≤ (runBest p t).2
                rw [h1]; exact le_of_lt h2
            | succ k =>
                exact h3 k (Nat.lt_of_succ_lt_succ hj)
          · intro j hj hji
            rw [hrun2]
            cases j with
            | zero =>
                show p.2 < (runBest p t).2
                rw [h1]; exact h2
            | succ k =>
                exact h4 k (Nat.lt_of_succ_lt_succ hj) (Nat.lt_of_succ_lt_succ hji)
      · have hrun2 : runBest init (p :: t) = runBest init t := by
          rw [runBest_cons, if_neg hc]
        have hple : p.2 ≤ init.2 := not_lt.mp hc
        rcases ih init with ⟨h1, h2⟩ | ⟨i, hi, h1, h2, h3, h4⟩
        · refine Or.inl ⟨by rw [hrun2, h1], ?_⟩
          intro q hq
          rcases List.mem_cons.mp hq with h | h
          · rw [h]; exact hple
          · exact h2 q h
        · refine Or.inr ⟨i + 1, Nat.succ_lt_succ hi, ?_, ?_, ?_, ?_⟩
          · rw [hrun2, h1]; rfl
          · exact h2
          · intro j hj
            rw [hrun2]
            cases j with
            | zero =>
                show p.2 ≤ (runBest init t).2
                rw [h1]; exact le_trans hple (le_of_lt h2)
            | succ k =>
                exact h3 k (Nat.lt_of_succ_lt_succ hj)
          · intro j hj hji
            rw [hrun2]
            cases j with
            | zero =>
                show p.2 < (runBest init t).2
                rw [h1]; exact lt_of_le_of_lt hple h2
            | succ k =>
                exact h4 k (Nat.lt_of_succ_lt_succ hj) (Nat.lt_of_succ_lt_succ hji)

/-! ## Arithmetic facts about the scores

Every scoring increment is a multiple of one tenth, so raw scores,
clamped confidences and their average (a multiple of one twentieth,
hence exactly two decimal places) are too; Python's `round(x, 2)` is
then the identity on the overall confidence. -/

/-- A nonnegative multiple of one tenth. -/
def IsTenths (q : ℚ) : Prop := ∃ n : ℕ, q = n / 10

lemma IsTenths.add {a b : ℚ} (ha : IsTenths a) (hb : IsTenths b) :
    IsTenths (a + b) := by
  obtain ⟨m, hm⟩ := ha
  obtain ⟨n, hn⟩ := hb
  exact ⟨m + n, by rw [hm, hn]; push_cast; ring⟩

lemma isTenths_zero : IsTenths 0 := ⟨0, by norm_num⟩

lemma examBonusOf_tenths (cfg : DocDef) (et : Option String) :
    IsTenths (examBonusOf cfg et) := by
  cases et with
  | none => exact isTenths_zero
  | some e =>
      simp only [examBonusOf]
      split_ifs
      · exact isTenths_zero
      · exact ⟨1, by norm_num⟩
      · exact isTenths_zero

lemma contentBonusOf_tenths (kws : List String) (ct : Option String) {w : ℚ}
    (hw : IsTenths w) : IsTenths (contentBonusOf kws ct w) := by
  cases ct with
  | none => exact isTenths_zero
  | some c =>
      simp only [contentBonusOf]
      split_ifs
      · exact isTenths_zero
      · exact hw
      · exact isTenths_zero

lemma docScore_tenths (cfg : DocDef) (fn : String) (et ct : Option String) :
    IsTenths (docScore cfg fn et ct) := by
  rw [docScore_eq]
  refine ((examBonusOf_tenths cfg et).add ?_).add ?_ |>.add
    (contentBonusOf_tenths _ _ ⟨2, by norm_num⟩)
  · exact ⟨3 * cfg.keywords.countP (fun kw => strContains fn (strLower kw)),
      by push_cast; ring⟩
  · split_ifs
    · exact ⟨4, by norm_num⟩
    · exact isTenths_zero

lemma eduScore_tenths (cfg : EduDef) (fn : String) (ct : Option String) :
    IsTenths (eduScore cfg fn ct) := by
  rw [eduScore_eq]
  refine (IsTenths.add ?_ ?_).add (contentBonusOf_tenths _ _ ⟨3, by norm_num⟩)
  · exact ⟨4 * cfg.keywords.countP (fun kw => strContains fn (strLower kw)),
      by push_cast; ring⟩
  · split_ifs
    · exact ⟨5, by norm_num⟩
    · exact isTenths_zero

lemma docRawBest_tenths (fn : String) (et ct : Option String) :
    IsTenths (docRawBest fn et ct).2 := by
  unfold docRawBest
  rcases runBest_mem_or_init (docScores fn et ct) ("document", 0) with h | h
  · rw [h]; exact isTenths_zero
  · obtain ⟨e, _, hh⟩ := List.mem_map.mp h
    rw [← hh]
    exact docScore_tenths e.2 fn et ct

lemma eduRawBest_tenths (fn : String) (ct : Option String) :
    IsTenths (eduRawBest fn ct).2 := by
  unfold eduRawBest
  rcases runBest_mem_or_init (eduScores fn ct) ("", 0) with h | h
  · rw [h]; exact isTenths_zero
  · obtain ⟨e, _, hh⟩ := List.mem_map.mp h
    rw [← hh]
    exact eduScore_tenths e.2 fn ct

lemma min_one_tenths {q : ℚ} (hq : IsTenths q) :
    ∃ n : ℕ, n ≤ 10 ∧ min q 1 = n / 10 := by
  obtain ⟨m, hm⟩ := hq
  rcases le_total q 1 with h | h
  · refine ⟨m, ?_, by rw [min_eq_left h, hm]⟩
    have h10 : (m : ℚ) / 10 ≤ 1 := hm ▸ h
    have : (m : ℚ) ≤ 10 := by
      rw [div_le_one (by norm_num : (0:ℚ) < 10)] at h10
      exact h10
    exact_mod_cast this
  · exact ⟨10, le_refl _, by rw [min_eq_right h]; norm_num⟩

lemma docConf_bounded (fn : String) (et ct : Option String) :
    ∃ n : ℕ, n ≤ 10 ∧ (detectDocumentType fn et ct).2 = n / 10 :=
  min_one_tenths (docRawBest_tenths fn et ct)

lemma eduConf_bounded (fn : String) (ct : Option String) :
    ∃ n : ℕ, n ≤ 10 ∧ (detectEducationLevel fn ct).2 = n / 10 :=
  min_one_tenths (eduRawBest_tenths fn ct)

lemma pyRound2_twentieths (n : ℕ) : pyRound2 ((n : ℚ) / 20) = (n : ℚ) / 20 := by
  unfold pyRound2 roundHalfEven
  have h1 : ((n : ℚ) / 20) * 100 = ((5 * n : ℕ) : ℚ) := by push_cast; ring
  rw [h1, Int.floor_natCast]
  have h2 : ((5 * n : ℕ) : ℚ) - (((5 * n : ℕ) : ℤ) : ℚ) = 0 := by push_cast; ring
  rw [h2]
  rw [if_pos (by norm_num : (0 : ℚ) < 1 / 2)]
  push_cast
  ring

lemma analyzeDocument_confidence (fn : String) (et ct : Option String) :
    (analyzeDocument fn et ct).confidence
      = pyRound2 (((detectDocumentType (strLower fn) et ct).2
          + (detectEducationLevel (strLower fn) ct).2) / 2) := rfl

lemma confidence_eq_avg (fn : String) (et ct : Option String) :
    (analyzeDocument fn et ct).confidence
      = ((detectDocumentType (strLower fn) et ct).2
          + (detectEducationLevel (strLower fn) ct).2) / 2 := by
  rw [analyzeDocument_confidence]
  obtain ⟨a, _, ha⟩ := docConf_bounded (strLower fn) et ct
  obtain ⟨b, _, hb⟩ := eduConf_bounded (strLower fn) ct
  have havg : ((detectDocumentType (strLower fn) et ct).2
      + (detectEducationLevel (strLower fn) ct).2) / 2 = ((a + b : ℕ) : ℚ) / 20 := by
    rw [ha, hb]; push_cast; ring
  rw [havg, pyRound2_twentieths]

/-! ## Helper facts for the naming and mapping layer -/

lemma lookupStr_mem {α : Type} :
    ∀ (l : List (String × α)) (k : String) (v : α),
      lookupStr l k = some v → (k, v) ∈ l := by
  intro l
  induction l with
  | nil => intro k v h; exact absurd h (by simp [lookupStr])
  | cons p t ih =>
      intro k v h
      rw [lookupStr] at h
      by_cases hk : k = p.1
      · rw [if_pos hk] at h
        exact List.mem_cons.mpr (Or.inl (by rw [hk, ← Option.some_inj.mp h]))
      · rw [if_neg hk] at h
        exact List.mem_cons.mpr (Or.inr (ih k v h))

lemma isPrefixOf_append (l r : List Char) : l.isPrefixOf (l ++ r) = true := by
  induction l with
  | nil => simp [List.isPrefixOf]
  | cons c t ih => simp [List.isPrefixOf, ih]

lemma hasInfix_of_prefix (needle hay : List Char)
    (h : needle.isPrefixOf hay = true) : hasInfix needle hay = true := by
  cases hay with
  | nil =>
      cases needle with
      | nil => rfl
      | cons c t => exact absurd h (by simp [List.isPrefixOf])
  | cons c t => simp [hasInfix, h]

lemma strContains_append_right (a b : String) : strContains (a ++ b) a = true := by
  unfold strContains
  have hd : (a ++ b).data = a.data ++ b.data := by
    cases a; cases b; rfl
  rw [hd]
  exact hasInfix_of_prefix _ _ (isPrefixOf_append a.data b.data)

lemma strUpper_ne_empty {s : String} (h : s ≠ "") : strUpper s ≠ "" := by
  intro hc
  apply h
  cases s with
  | mk data =>
      cases data with
      | nil => rfl
      | cons c t => exact absurd (congrArg String.data hc) (by simp [strUpper])

lemma bne_empty_of_ne {s : String} (h : s ≠ "") : (s != "") = true := by
  rw [bne_iff_ne]
  exact h

/-- Every exam-mapping value in the document-type catalog is nonempty. -/
lemma mappingValuesNonempty :
    (documentPatterns.all fun ent =>
      ent.2.examMappings.all fun kv => kv.2 != "") = true := by decide

/-- Every document-type id in the catalog is nonempty. -/
lemma catalogIdsNonempty :
    (documentPatterns.all fun ent => ent.1 != "") = true := by decide

lemma getExamMapping_ne_empty {dt : String} (et : Option String) (h : dt ≠ "") :
    getExamMapping dt et ≠ "" := by
  cases et with
  | none => exact h
  | some e =>
      simp only [getExamMapping]
      by_cases he : e = ""
      · rw [if_pos he]; exact h
      · rw [if_neg he]
        cases hl : lookupStr documentPatterns dt with
        | none => exact h
        | some cfg =>
            show (lookupStr cfg.examMappings e).getD dt ≠ ""
            cases hm : lookupStr cfg.examMappings e with
            | none => simp only [Option.getD_none]; exact h
            | some lbl =>
                simp only [Option.getD_some]
                have hmem1 : (dt, cfg) ∈ documentPatterns := lookupStr_mem _ _ _ hl
                have hmem2 : (e, lbl) ∈ cfg.examMappings := lookupStr_mem _ _ _ hm
                have hall := List.all_eq_true.mp mappingValuesNonempty _ hmem1
                have hv := List.all_eq_true.mp hall _ hmem2
                exact bne_iff_ne.mp hv

set_option maxRecDepth 4000 in
lemma detect_doc_name_ne_empty (fn : String) (et ct : Option String) :
    (detectDocumentType fn et ct).1 ≠ "" := by
  show (docRawBest fn et ct).1 ≠ ""
  unfold docRawBest
  rcases runBest_mem_or_init (docScores fn et ct) ("document", 0) with h | h
  · rw [h]; intro hc; exact absurd (congrArg String.data hc) (by simp)
  · obtain ⟨e, he, hh⟩ := List.mem_map.mp h
    rw [← hh]
    exact bne_iff_ne.mp (List.all_eq_true.mp catalogIdsNonempty _ he)

/-! ## Facts about the empty input -/

/-- On the empty filename, no catalog keyword or pattern fires for any
document-type definition. -/
lemma docCatalogEmptyInput :
    (documentPatterns.all fun ent =>
      ((ent.2.keywords.countP fun kw => strContains "" (strLower kw)) == 0) &&
      !(ent.2.patterns.any fun p => reSearch p "")) = true := by decide

/-- On the empty filename, no catalog keyword or pattern fires for any
education-level definition. -/
lemma eduCatalogEmptyInput :
    (educationPatterns.all fun ent =>
      ((ent.2.keywords.countP fun kw => strContains "" (strLower kw)) == 0) &&
      !(ent.2.patterns.any fun p => reSearch p "")) = true := by decide

lemma docScores_empty_le :
    ∀ p ∈ docScores "" none none, p.2 ≤ 0 := by
  intro p hp
  obtain ⟨e, he, hh⟩ := List.mem_map.mp hp
  have hall := List.all_eq_true.mp docCatalogEmptyInput _ he
  rw [Bool.and_eq_true, beq_iff_eq, Bool.not_eq_true'] at hall
  rw [← hh]
  show docScore e.2 "" none none ≤ 0
  rw [docScore_eq, hall.1, hall.2]
  norm_num [examBonusOf, contentBonusOf]

lemma eduScores_empty_le :
    ∀ p ∈ eduScores "" none, p.2 ≤ 0 := by
  intro p hp
  obtain ⟨e, he, hh⟩ := List.mem_map.mp hp
  have hall := List.all_eq_true.mp eduCatalogEmptyInput _ he
  rw [Bool.and_eq_true, beq_iff_eq, Bool.not_eq_true'] at hall
  rw [← hh]
  show eduScore e.2 "" none ≤ 0
  rw [eduScore_eq, hall.1, hall.2]
  norm_num [contentBonusOf]

/-! ## Batch analysis as a map -/

lemma foldl_append_eq_map {α β : Type} (g : α → β) (files : List α) :
    ∀ acc : List β,
      files.foldl (fun rs fi => rs ++ [g fi]) acc = acc ++ files.map g := by
  induction files with
  | nil => intro acc; simp
  | cons f t ih => intro acc; simp [List.foldl, ih]

lemma batchAnalyze_eq_map (files : List FileInfo) (et : Option String) :
    batchAnalyze files et
      = files.map (fun fi => analyzeDocument fi.name et fi.content) := by
  unfold batchAnalyze
  rw [foldl_append_eq_map]
  simp


/-! ## Additional helpers for the claim theorems -/

/-- The result of the selection loop started at `(d, 0)`: either nothing
scored above zero and the fallback is kept, or the first entry attaining
the maximum score is selected. -/
lemma runBest_claim (l : List (String × ℚ)) (d : String) :
    ((runBest (d, 0) l).1 = d ∧ ∀ p ∈ l, p.2 ≤ 0) ∨
    (∃ i, ∃ hi : i < l.length,
      (runBest (d, 0) l).1 = (l.get ⟨i, hi⟩).1 ∧
      (∀ j, ∀ hj : j < l.length, (l.get ⟨j, hj⟩).2 ≤ (l.get ⟨i, hi⟩).2) ∧
      (∀ j, ∀ hj : j < l.length, j < i → (l.get ⟨j, hj⟩).2 < (l.get ⟨i, hi⟩).2)) := by
  rcases runBest_spec l (d, 0) with ⟨h1, h2⟩ | ⟨i, hi, h1, h2, h3, h4⟩
  · exact Or.inl ⟨by rw [h1], h2⟩
  · refine Or.inr ⟨i, hi, by rw [h1], ?_, ?_⟩
    · intro j hj
      have hh := h3 j hj
      rwa [h1] at hh
    · intro j hj hji
      have hh := h4 j hj hji
      rwa [h1] at hh

/-- Joining the exam-branch name parts after dropping empty parts. -/
lemma joinParts_exam (examPart est : String) (hest : est ≠ "") :
    joinParts "_" (List.filter (fun p => p != "") [examPart, est])
      = if examPart = "" then est else examPart ++ "_" ++ est := by
  by_cases hp : examPart = ""
  · rw [if_pos hp, hp]
    simp [bne_empty_of_ne hest, joinParts]
  · rw [if_neg hp]
    simp [bne_empty_of_ne hest, bne_empty_of_ne hp, joinParts]

lemma detect_doc_eq_fallback (fn : String) (et ct : Option String)
    (h : ∀ p ∈ docScores fn et ct, p.2 ≤ 0) :
    detectDocumentType fn et ct = ("document", 0) := by
  have h0 := runBest_eq_init_of_le (docScores fn et ct) ("document", 0) h
  show ((docRawBest fn et ct).1, min (docRawBest fn et ct).2 1) = ("document", 0)
  unfold docRawBest
  rw [h0]
  have hm : min ((("document", 0) : String × ℚ)).2 1 = 0 := by
    norm_num
  rw [hm]

lemma detect_edu_eq_fallback (fn : String) (ct : Option String)
    (h : ∀ p ∈ eduScores fn ct, p.2 ≤ 0) :
    detectEducationLevel fn ct = ("", 0) := by
  have h0 := runBest_eq_init_of_le (eduScores fn ct) ("", 0) h
  show ((eduRawBest fn ct).1, min (eduRawBest fn ct).2 1) = ("", 0)
  unfold eduRawBest
  rw [h0]
  have hm : min ((("", 0) : String × ℚ)).2 1 = 0 := by
    norm_num
  rw [hm]

/-! ## The claims -/

/-- The education-level scorer as the specification claims it in C1:
the same weights as the document-type scorer (0.3 per filename keyword
without short-circuit, 0.4 for the first matching pattern, 0.2 for the
first matching content keyword).  This definition follows the spec's
words and is compared against `eduScore`, the translation of
`_detect_education_level`, which uses weights 0.4 / 0.5 / 0.3. -/
def eduScoreClaimed (cfg : EduDef) (filename : String)
    (content : Option String) : ℚ :=
  let c1 := cfg.keywords.foldl
    (fun acc kw => if strContains filename (strLower kw) then acc + 0.3 else acc) 0
  let c2 := c1 + patternHit 0.4 cfg.patterns filename
  match content with
  | none => c2
  | some ct => if ct = "" then c2 else c2 + contentHit 0.2 cfg.keywords (strLower ct)

/-- C1 (counterexample): on the filename "10th" the education-level
scorer of the code gives 0.9 (0.4 for the keyword "10th" plus 0.5 for
its first pattern), while the document-type weights the claim asserts
(0.3 plus 0.4) would give 0.7 — the education catalog is NOT scored with
the document-type weights. -/
theorem eduScore_weights_counterexample :
    eduScore tenthDef "10th" none = 0.9 ∧
    eduScoreClaimed tenthDef "10th" none = 0.7 ∧
    eduScore tenthDef "10th" none ≠ eduScoreClaimed tenthDef "10th" none := by
  have e1 : (tenthDef.keywords.countP fun kw => strContains "10th" (strLower kw))
      = 1 := by decide
  have e2 : (tenthDef.patterns.any fun p => reSearch p "10th") = true := by decide
  have h1 : eduScore tenthDef "10th" none = 0.9 := by
    rw [eduScore_eq, e1, e2]
    norm_num [contentBonusOf]
  have h2 : eduScoreClaimed tenthDef "10th" none = 0.7 := by
    unfold eduScoreClaimed
    simp only [foldl_count_add, patternHit_eq, e1, e2]
    norm_num
  refine ⟨h1, h2, ?_⟩
  rw [h1, h2]
  norm_num

/-- C1 (amended): every education-level definition is scored by the same
algorithm shape as document types — per-keyword accumulation over the
filename without short-circuit, a single bonus for the first matching
pattern, a single bonus for the first matching content keyword — but
with weights 0.4, 0.5 and 0.3 respectively, and with no exam bonus. -/
theorem eduScore_components (cfg : EduDef) (fn : String) (ct : Option String) :
    eduScore cfg fn ct =
      0.4 * ((cfg.keywords.countP fun kw => strContains fn (strLower kw)) : ℚ)
      + (if cfg.patterns.any (fun p => reSearch p fn) then 0.5 else 0)
      + contentBonusOf cfg.keywords ct 0.3 :=
  eduScore_eq cfg fn ct

/-- C3: the document-type score of a definition is exactly the sum of
four independent components: 0.1 when the supplied exam type is a key of
the definition's exam-mapping table, 0.3 for EACH keyword occurring in
the filename (no short-circuit, hits stack), 0.4 when some pattern
matches the filename (only the first match contributes), and 0.2 when
content is supplied and some keyword occurs in it (only the first match
contributes). -/
theorem docScore_components (cfg : DocDef) (fn : String) (et ct : Option String) :
    docScore cfg fn et ct =
      examBonusOf cfg et
      + 0.3 * ((cfg.keywords.countP fun kw => strContains fn (strLower kw)) : ℚ)
      + (if cfg.patterns.any (fun p => reSearch p fn) then 0.4 else 0)
      + contentBonusOf cfg.keywords ct 0.2 :=
  docScore_eq cfg fn et ct


/-- C2 (counterexample): with no exam type, the suggested name for the
document type `photograph` is "photograph.jpg" — the raw id, not the
display label "Photo", which does not occur in the name at all: the
display-table branch of `_generate_exam_specific_name` is not taken. -/
theorem suggestName_display_counterexample :
    generateExamSpecificName "photograph" "" "photo.jpg" none = "photograph.jpg" ∧
    strContains (generateExamSpecificName "photograph" "" "photo.jpg" none)
      "Photo" = false :=
  ⟨by decide, by decide⟩

/-- C2 (amended): with no exam type, for every nonempty document type —
in or out of the fixed display table — the suggested name is the raw
document-type id followed by a dot and the extension; the name therefore
contains the raw id, and the display table never contributes. -/
theorem suggestName_no_exam (dt el nm : String) (h : dt ≠ "") :
    generateExamSpecificName dt el nm none = dt ++ "." ++ fileExtension nm ∧
    strContains (generateExamSpecificName dt el nm none) dt = true := by
  have hne : getExamMapping dt none ≠ "" := getExamMapping_ne_empty none h
  have hmain : generateExamSpecificName dt el nm none
      = dt ++ "." ++ fileExtension nm := by
    simp only [generateExamSpecificName]
    rw [if_neg hne, joinParts_exam _ _ hne, if_pos rfl]
    rfl
  refine ⟨hmain, ?_⟩
  rw [hmain, String.append_assoc]
  exact strContains_append_right dt ("." ++ fileExtension nm)

/-- C2 (witness): the amended statement at the document type
`signature` with education level `10th` and original name "a.png". -/
theorem suggestName_no_exam_witness :
    generateExamSpecificName "signature" "10th" "a.png" none = "signature.png" := by
  have h := (suggestName_no_exam "signature" "10th" "a.png" (by decide)).1
  rw [h]
  decide

/-- C4: each dimension confidence equals `min(rawScore, 1.0)` for its
raw best score, both dimension confidences lie in [0, 1], and the
overall confidence lies in [0, 1], for every input. -/
theorem confidence_clamped (fn : String) (et ct : Option String) :
    (analyzeDocument fn et ct).documentTypeConfidence
        = min (docRawBest (strLower fn) et ct).2 1 ∧
    (analyzeDocument fn et ct).educationLevelConfidence
        = min (eduRawBest (strLower fn) ct).2 1 ∧
    0 ≤ (analyzeDocument fn et ct).documentTypeConfidence ∧
    (analyzeDocument fn et ct).documentTypeConfidence ≤ 1 ∧
    0 ≤ (analyzeDocument fn et ct).educationLevelConfidence ∧
    (analyzeDocument fn et ct).educationLevelConfidence ≤ 1 ∧
    0 ≤ (analyzeDocument fn et ct).confidence ∧
    (analyzeDocument fn et ct).confidence ≤ 1 := by
  have hdf : (analyzeDocument fn et ct).documentTypeConfidence
      = (detectDocumentType (strLower fn) et ct).2 := rfl
  have hef : (analyzeDocument fn et ct).educationLevelConfidence
      = (detectEducationLevel (strLower fn) ct).2 := rfl
  obtain ⟨a, ha10, ha⟩ := docConf_bounded (strLower fn) et ct
  obtain ⟨b, hb10, hb⟩ := eduConf_bounded (strLower fn) ct
  have ha0 : (0 : ℚ) ≤ (a : ℚ) / 10 :=
    div_nonneg (Nat.cast_nonneg a) (by norm_num)
  have hb0 : (0 : ℚ) ≤ (b : ℚ) / 10 :=
    div_nonneg (Nat.cast_nonneg b) (by norm_num)
  have ha1 : (a : ℚ) / 10 ≤ 1 := by
    rw [div_le_one (by norm_num : (0 : ℚ) < 10)]
    exact_mod_cast ha10
  have hb1 : (b : ℚ) / 10 ≤ 1 := by
    rw [div_le_one (by norm_num : (0 : ℚ) < 10)]
    exact_mod_cast hb10
  refine ⟨rfl, rfl, ?_, ?_, ?_, ?_, ?_, ?_⟩
  · rw [hdf, ha]; exact ha0
  · rw [hdf, ha]; exact ha1
  · rw [hef, hb]; exact hb0
  · rw [hef, hb]; exact hb1
  · rw [confidence_eq_avg, ha, hb]
    linarith
  · rw [confidence_eq_avg, ha, hb]
    linarith

/-- C5: for each dimension the classifier selects the entry of strictly
greatest score, and on ties the entry appearing earlier in catalog
iteration order: either nothing scores above the fallback, or the
selected entry attains the maximum score and every strictly earlier
catalog entry scores strictly less (so an equal-or-lower score never
replaces the current best).  The functions are pure, so the selection is
identical on every run with the same inputs. -/
theorem classifier_first_seen_wins (fn : String) (et ct : Option String) :
    (((detectDocumentType fn et ct).1 = "document"
        ∧ ∀ p ∈ docScores fn et ct, p.2 ≤ 0) ∨
      (∃ i, ∃ hi : i < (docScores fn et ct).length,
        (detectDocumentType fn et ct).1 = ((docScores fn et ct).get ⟨i, hi⟩).1 ∧
        (∀ j, ∀ hj : j < (docScores fn et ct).length,
          ((docScores fn et ct).get ⟨j, hj⟩).2
            ≤ ((docScores fn et ct).get ⟨i, hi⟩).2) ∧
        (∀ j, ∀ hj : j < (docScores fn et ct).length, j < i →
          ((docScores fn et ct).get ⟨j, hj⟩).2
            < ((docScores fn et ct).get ⟨i, hi⟩).2)))
    ∧ (((detectEducationLevel fn ct).1 = ""
        ∧ ∀ p ∈ eduScores fn ct, p.2 ≤ 0) ∨
      (∃ i, ∃ hi : i < (eduScores fn ct).length,
        (detectEducationLevel fn ct).1 = ((eduScores fn ct).get ⟨i, hi⟩).1 ∧
        (∀ j, ∀ hj : j < (eduScores fn ct).length,
          ((eduScores fn ct).get ⟨j, hj⟩).2
            ≤ ((eduScores fn ct).get ⟨i, hi⟩).2) ∧
        (∀ j, ∀ hj : j < (eduScores fn ct).length, j < i →
          ((eduScores fn ct).get ⟨j, hj⟩).2
            < ((eduScores fn ct).get ⟨i, hi⟩).2))) :=
  ⟨runBest_claim (docScores fn et ct) "document",
   runBest_claim (eduScores fn ct) ""⟩

/-- C6: the overall confidence is `round((dtc + elc) / 2, 2)` for the
two dimension confidences, with `round` modelled as round-half-to-even
on exact rationals — and since both dimension confidences are multiples
of one tenth, the average is a multiple of one twentieth (exactly two
decimal places), so the rounding is the identity and the half-even
versus half-up question cannot distinguish any reachable value. -/
theorem overall_confidence_rounded_avg (fn : String) (et ct : Option String) :
    (analyzeDocument fn et ct).confidence
        = pyRound2 (((analyzeDocument fn et ct).documentTypeConfidence
            + (analyzeDocument fn et ct).educationLevelConfidence) / 2) ∧
    (analyzeDocument fn et ct).confidence
        = ((analyzeDocument fn et ct).documentTypeConfidence
            + (analyzeDocument fn et ct).educationLevelConfidence) / 2 :=
  ⟨rfl, confidence_eq_avg fn et ct⟩


/-- C7: exam-specific category resolution — with no exam type (or an
empty one) the detected category is the raw document-type id; with a
truthy exam type it is the exam-mapping entry when the exam id is a key
of the detected type's table, and the raw id unchanged when the type is
not in the catalog or the exam id is absent from its table (an unknown
exam id is never an error); and the result's `detected_category` field
is exactly this resolution applied to the detected document type. -/
theorem exam_mapping_resolution (dt e : String) (he : e ≠ "") :
    getExamMapping dt none = dt ∧
    getExamMapping dt (some "") = dt ∧
    (∀ cfg lbl, lookupStr documentPatterns dt = some cfg →
      lookupStr cfg.examMappings e = some lbl →
      getExamMapping dt (some e) = lbl) ∧
    (lookupStr documentPatterns dt = none → getExamMapping dt (some e) = dt) ∧
    (∀ cfg, lookupStr documentPatterns dt = some cfg →
      lookupStr cfg.examMappings e = none → getExamMapping dt (some e) = dt) ∧
    (∀ fn ct et2, (analyzeDocument fn et2 ct).detectedCategory
      = getExamMapping (analyzeDocument fn et2 ct).documentType et2) := by
  refine ⟨rfl, by simp [getExamMapping], ?_, ?_, ?_, fun fn ct et2 => rfl⟩
  · intro cfg lbl h1 h2
    simp only [getExamMapping, if_neg he, h1, h2, Option.getD_some]
  · intro h1
    simp only [getExamMapping, if_neg he, h1]
  · intro cfg h1 h2
    simp only [getExamMapping, if_neg he, h1, h2, Option.getD_none]

/-- C7 (witness): the `neet` mapping of `photograph` resolves to
`passport_photograph`. -/
theorem exam_mapping_resolution_witness :
    getExamMapping "photograph" (some "neet") = "passport_photograph" :=
  (exam_mapping_resolution "photograph" "neet" (by decide)).2.2.1
    photographDef "passport_photograph" (by decide) (by decide)

/-- C8: when no document-type definition scores above 0.0 the detector
returns the fallback `("document", 0.0)`, when no education-level
definition scores above 0.0 the detector returns `("", 0.0)`, and in
particular the empty filename yields document type "document", education
level "" and overall confidence 0.0 — analysis never fails. -/
theorem analyze_fallback (fn : String) (et ct : Option String)
    (hd : ∀ p ∈ docScores fn et ct, p.2 ≤ 0)
    (he : ∀ p ∈ eduScores fn ct, p.2 ≤ 0) :
    detectDocumentType fn et ct = ("document", 0) ∧
    detectEducationLevel fn ct = ("", 0) ∧
    (analyzeDocument "" none none).documentType = "document" ∧
    (analyzeDocument "" none none).educationLevel = "" ∧
    (analyzeDocument "" none none).confidence = 0 := by
  have hsl : strLower "" = "" := rfl
  have h1 : detectDocumentType "" none none = ("document", 0) :=
    detect_doc_eq_fallback "" none none docScores_empty_le
  have h2 : detectEducationLevel "" none = ("", 0) :=
    detect_edu_eq_fallback "" none eduScores_empty_le
  refine ⟨detect_doc_eq_fallback fn et ct hd, detect_edu_eq_fallback fn ct he,
    ?_, ?_, ?_⟩
  · show (detectDocumentType (strLower "") none none).1 = "document"
    rw [hsl, h1]
  · show (detectEducationLevel (strLower "") none).1 = ""
    rw [hsl, h2]
  · rw [confidence_eq_avg "" none none, hsl, h1, h2]
    norm_num

/-- C8 (witness): the fallback theorem applied to the empty filename. -/
theorem analyze_fallback_witness :
    detectDocumentType "" none none = ("document", 0) ∧
    detectEducationLevel "" none = ("", 0) ∧
    (analyzeDocument "" none none).documentType = "document" ∧
    (analyzeDocument "" none none).educationLevel = "" ∧
    (analyzeDocument "" none none).confidence = 0 :=
  analyze_fallback "" none none docScores_empty_le eduScores_empty_le

/-- C9: batch analysis returns exactly one result per input item, in
input order: the output has the input's length and its i-th element is
the analysis of the i-th item's name and content under the shared exam
type (duplicate names are just analysed twice). -/
theorem batch_order_preserved (files : List FileInfo) (et : Option String) :
    (batchAnalyze files et).length = files.length ∧
    ∀ i : ℕ, (batchAnalyze files et)[i]?
      = (files[i]?).map fun fi => analyzeDocument fi.name et fi.content := by
  rw [batchAnalyze_eq_map]
  refine ⟨List.length_map _ _, fun i => ?_⟩
  rw [List.getElem?_map]

/-- C10: for every call with a nonempty document type, the exam-mapping
lookup returns a nonempty string, so the generic display-table branch of
the namer is unreachable: the suggested name's base is the exam-mapped
id verbatim, prefixed by the uppercased exam type and an underscore
exactly when a truthy exam type was supplied, followed by a dot and the
extension taken after the last dot of the original name (or "pdf");
and detected document types are always nonempty. -/
theorem suggested_name_shape (dt el nm : String) (et : Option String)
    (h : dt ≠ "") :
    getExamMapping dt et ≠ "" ∧
    generateExamSpecificName dt el nm et =
      (match et with
       | none => getExamMapping dt et
       | some e => if e = "" then getExamMapping dt et
           else strUpper e ++ "_" ++ getExamMapping dt et) ++ "." ++ fileExtension nm ∧
    (∀ fn ct, (detectDocumentType fn et ct).1 ≠ "") := by
  refine ⟨getExamMapping_ne_empty et h, ?_,
    fun fn ct => detect_doc_name_ne_empty fn et ct⟩
  cases et with
  | none =>
      have hne : getExamMapping dt none ≠ "" := getExamMapping_ne_empty none h
      simp only [generateExamSpecificName]
      rw [if_neg hne, joinParts_exam _ _ hne, if_pos rfl]
  | some e =>
      have hne : getExamMapping dt (some e) ≠ "" :=
        getExamMapping_ne_empty (some e) h
      simp only [generateExamSpecificName]
      rw [if_neg hne, joinParts_exam _ _ hne]
      by_cases hee : e = ""
      · simp only [if_pos hee]
        simp
      · simp only [if_neg hee]
        rw [if_neg (strUpper_ne_empty hee)]

/-- C10 (witness): with exam type `neet` and detected type `photograph`
the suggested name for "x.png" is "NEET_passport_photograph.png". -/
theorem suggested_name_shape_witness :
    generateExamSpecificName "photograph" "" "x.png" (some "neet")
      = "NEET_passport_photograph.png" := by
  have h := (suggested_name_shape "photograph" "" "x.png" (some "neet")
    (by decide)).2.1
  rw [h]
  decide

end DocAnalyzer
